import Mathlib

/-!
Verification development for the bulk DynamoDB-to-Supabase transfer engine
of this repository (scripts/fast-parallel-import.py and
scripts/import-dynamodb-to-supabase.py).

The Python runtime values handled by the two scripts are shallowly embedded
as the inductive type `PyVal`; the two value decoders, the batch planner,
the per-record retry loop, the shared progress dictionary and the
orchestration loops are each translated into executable Lean definitions,
and the spec claims are settled against them.
-/

set_option maxHeartbeats 1000000

/-- Model of the Python runtime values the scripts manipulate: strings,
ints, floats (carried here as exact rationals), booleans, None,
`decimal.Decimal` objects (carried as mantissa and decimal exponent,
the value being `m * 10 ^ e`), lists, and dicts (association lists). -/
inductive PyVal where
  | str (s : String)
  | int (n : Int)
  | float (q : ℚ)
  | bool (b : Bool)
  | null
  | decimal (m e : Int)
  | list (xs : List PyVal)
  | dict (es : List (String × PyVal))

/-! ### Decimal string parsing

`decimal.Decimal(str)` parses the exact decimal representation.  We model
the numeric core of that grammar: an optional sign, an integer part and/or
a fractional part, and an optional exponent.  The result is the pair
`(m, e)` with exact value `m * 10 ^ e`. -/

/-- Numeric value of a digit character. -/
def digitVal (c : Char) : Nat := c.toNat - 48

/-- Value of a digit string read most-significant first. -/
def digitsToNat (ds : List Char) : Nat :=
  ds.foldl (fun a c => a * 10 + digitVal c) 0

/-- Consume an optional leading sign, returning the sign factor. -/
def parseSign : List Char → Int × List Char
  | '-' :: cs => (-1, cs)
  | '+' :: cs => (1, cs)
  | cs => (1, cs)

/-- Parse the exact decimal grammar `[sign] digits [. digits] [(e|E) [sign] digits]`
into mantissa and exponent, as `decimal.Decimal` does for such strings. -/
def parseDecChars (cs : List Char) : Option (Int × Int) :=
  let sg := (parseSign cs).1
  let cs1 := (parseSign cs).2
  let ip := cs1.takeWhile Char.isDigit
  let cs2 := cs1.dropWhile Char.isDigit
  let fp :=
    match cs2 with
    | '.' :: rest => rest.takeWhile Char.isDigit
    | _ => []
  let cs3 :=
    match cs2 with
    | '.' :: rest => rest.dropWhile Char.isDigit
    | _ => cs2
  if ip.length + fp.length = 0 then none
  else
    let m : Int := sg * (digitsToNat (ip ++ fp) : Int)
    match cs3 with
    | [] => some (m, -(fp.length : Int))
    | c :: rest =>
      if c = 'e' ∨ c = 'E' then
        let es := (parseSign rest).1
        let rest1 := (parseSign rest).2
        let ed := rest1.takeWhile Char.isDigit
        let rest2 := rest1.dropWhile Char.isDigit
        if ed.length = 0 ∨ rest2 ≠ [] then none
        else some (m, es * (digitsToNat ed : Int) - (fp.length : Int))
      else none

/-- Parse a number-as-string exactly, as `decimal.Decimal` does. -/
def parseDec (s : String) : Option (Int × Int) := parseDecChars s.data

/-- Exact rational value of the parsed decimal `m * 10 ^ e`. -/
def decToRat (m e : Int) : ℚ :=
  if 0 ≤ e then (m : ℚ) * 10 ^ e.toNat else (m : ℚ) / 10 ^ (-e).toNat

/-- The test `num % 1 == 0` performed by both scripts on the parsed
`Decimal`: true exactly when the decimal value has zero fractional part. -/
def pyFracZero (m e : Int) : Bool :=
  if 0 ≤ e then true else decide ((10 : Int) ^ (-e).toNat ∣ m)

/-- The conversion `int(num)` applied when the fractional part is zero
(truncation; exact on integral values, the only case where it is used). -/
def pyIntOf (m e : Int) : Int :=
  if 0 ≤ e then m * 10 ^ e.toNat else m / 10 ^ (-e).toNat

/-- The numeric decoding rule shared by both scripts:
`int(num) if num % 1 == 0 else float(num)`. -/
def decNum (m e : Int) : PyVal :=
  if pyFracZero m e then .int (pyIntOf m e) else .float (decToRat m e)

theorem pyFracZero_iff_den {m e : Int} :
    pyFracZero m e = true ↔ (decToRat m e).den = 1 := by
  unfold pyFracZero decToRat
  by_cases he : 0 ≤ e
  · simp only [if_pos he, true_iff]
    rw [show ((m : ℚ) * 10 ^ e.toNat) = ((m * 10 ^ e.toNat : Int) : ℚ) by push_cast; ring]
    exact Rat.den_intCast _
  · simp only [if_neg he, decide_eq_true_eq]
    constructor
    · rintro ⟨t, rfl⟩
      have h10 : ((10 : ℚ) ^ (-e).toNat) ≠ 0 := by positivity
      have hcast : ((10 ^ (-e).toNat * t : Int) : ℚ) / 10 ^ (-e).toNat = (t : ℚ) := by
        push_cast
        rw [mul_comm, mul_div_assoc, div_self h10, mul_one]
      rw [hcast]
      exact Rat.den_intCast _
    · intro hden
      set q : ℚ := (m : ℚ) / 10 ^ (-e).toNat with hq
      have hqnum : (q.num : ℚ) = q := by
        rw [← Rat.num_div_den q, hden]; simp
      have hmq : (m : ℚ) = q.num * 10 ^ (-e).toNat := by
        rw [hqnum, hq, div_mul_cancel₀]
        positivity
      refine ⟨q.num, ?_⟩
      have : (m : ℚ) = ((10 ^ (-e).toNat * q.num : Int) : ℚ) := by
        push_cast; rw [hmq]; ring
      exact_mod_cast this

theorem pyIntOf_cast {m e : Int} (h : pyFracZero m e = true) :
    ((pyIntOf m e : Int) : ℚ) = decToRat m e := by
  unfold pyIntOf decToRat
  by_cases he : 0 ≤ e
  · simp only [if_pos he]; push_cast; ring
  · simp only [if_neg he]
    unfold pyFracZero at h
    simp only [if_neg he, decide_eq_true_eq] at h
    rw [Int.cast_div_charZero h]
    push_cast; ring

/-- When the value is integral, the scripts produce `.int` of the exact value. -/
theorem decNum_int {m e : Int} (h : (decToRat m e).den = 1) :
    decNum m e = .int (pyIntOf m e) ∧ ((pyIntOf m e : Int) : ℚ) = decToRat m e := by
  have hb : pyFracZero m e = true := pyFracZero_iff_den.mpr h
  exact ⟨by simp [decNum, hb], pyIntOf_cast hb⟩

/-- When the value is not integral, the scripts produce `.float` of the exact value. -/
theorem decNum_float {m e : Int} (h : (decToRat m e).den ≠ 1) :
    decNum m e = .float (decToRat m e) := by
  have hb : pyFracZero m e = false := by
    cases hx : pyFracZero m e
    · rfl
    · exact absurd (pyFracZero_iff_den.mp hx) h
  simp [decNum, hb]

/-- Whether a value is a floating-point value. -/
def isFloatV : PyVal → Bool
  | .float _ => true
  | _ => false

/-- A value found by `List.lookup` is structurally smaller than the
association list, which justifies the recursion of the decoders below. -/
theorem lookup_sizeOf {β : Type} [SizeOf β] {k : String} {v : β} :
    ∀ {es : List (String × β)}, List.lookup k es = some v → sizeOf v < sizeOf es
  | [], h => by simp [List.lookup] at h
  | (k2, v2) :: rest, h => by
    rw [List.lookup] at h
    split at h
    · cases h
      simp
      omega
    · have := lookup_sizeOf h
      simp
      omega

/-- Translation of the `'NS'` branch shared by both scripts:
`[float(Decimal(n)) for n in value['NS']]`. -/
def parseNumList : List PyVal → Option (List PyVal)
  | [] => some []
  | .str s :: rest =>
    match parseDec s, parseNumList rest with
    | some p, some rest2 => some (.float (decToRat p.1 p.2) :: rest2)
    | _, _ => none
  | _ :: _ => none

mutual

/-- Translation of `convert_dynamodb_item` from
scripts/fast-parallel-import.py (lines 66-86), specialised to the
treatment of one value of the item.  The source checks the tag keys in
the order S, N, BOOL, NULL, SS, NS, M, L and otherwise stores the value
unchanged; a bare `Decimal` is converted by the same `int`/`float` rule
and any other non-dict value is stored unchanged.  The source's `'L'`
branch wraps each element into a one-entry item and unwraps the result,
which applies exactly this per-value dispatch to every element. -/
def fastConvertValue (v : PyVal) : Option PyVal :=
  match v with
  | .dict es =>
    match List.lookup "S" es with
    | some w => some w
    | none =>
      match List.lookup "N" es with
      | some (.str s) => (parseDec s).map (fun p => decNum p.1 p.2)
      | some _ => none
      | none =>
        match List.lookup "BOOL" es with
        | some w => some w
        | none =>
          match List.lookup "NULL" es with
          | some _ => some .null
          | none =>
            match List.lookup "SS" es with
            | some w => some w
            | none =>
              match List.lookup "NS" es with
              | some (.list xs) => (parseNumList xs).map .list
              | some _ => none
              | none =>
                match hM : List.lookup "M" es with
                | some (.dict mes) => (fastConvertEntries mes).map .dict
                | some _ => none
                | none =>
                  match hL : List.lookup "L" es with
                  | some (.list xs) => (fastConvertList xs).map .list
                  | some _ => none
                  | none => some (.dict es)
  | .decimal m e => some (decNum m e)
  | w => some w
termination_by sizeOf v
decreasing_by
  all_goals
    first
    | (have hx := lookup_sizeOf hM; simp at hx ⊢; omega)
    | (have hx := lookup_sizeOf hL; simp at hx ⊢; omega)
    | (simp; omega)
    | simp
    | omega

/-- Translation of the item-level loop of `convert_dynamodb_item` in
scripts/fast-parallel-import.py: every value of the item goes through the
per-value dispatch. -/
def fastConvertEntries (es : List (String × PyVal)) :
    Option (List (String × PyVal)) :=
  match es with
  | [] => some []
  | (k, v) :: rest =>
    match fastConvertValue v, fastConvertEntries rest with
    | some v2, some rest2 => some ((k, v2) :: rest2)
    | _, _ => none
termination_by sizeOf es
decreasing_by
  all_goals simp
  all_goals omega

/-- Elementwise conversion of a list payload in the fast script. -/
def fastConvertList (xs : List PyVal) : Option (List PyVal) :=
  match xs with
  | [] => some []
  | v :: rest =>
    match fastConvertValue v, fastConvertList rest with
    | some v2, some rest2 => some (v2 :: rest2)
    | _, _ => none
termination_by sizeOf xs
decreasing_by
  all_goals simp
  all_goals omega

end

mutual

/-- Translation of `convert_dynamodb_value` from
scripts/import-dynamodb-to-supabase.py (lines 90-121).  The source checks
the tag keys in the order S, N, B, SS, NS, BS, M, L, NULL, BOOL; a dict
with none of those keys is treated as an already-converted plain dict and
converted pair-wise; a plain list is converted element-wise; a bare
`Decimal` is converted by the `int`/`float` rule; anything else is
returned unchanged. -/
def convert_dynamodb_value (v : PyVal) : Option PyVal :=
  match v with
  | .dict es =>
    match List.lookup "S" es with
    | some w => some w
    | none =>
      match List.lookup "N" es with
      | some (.str s) => (parseDec s).map (fun p => decNum p.1 p.2)
      | some _ => none
      | none =>
        match List.lookup "B" es with
        | some w => some w
        | none =>
          match List.lookup "SS" es with
          | some w => some w
          | none =>
            match List.lookup "NS" es with
            | some (.list xs) => (parseNumList xs).map .list
            | some _ => none
            | none =>
              match List.lookup "BS" es with
              | some w => some w
              | none =>
                match hM : List.lookup "M" es with
                | some (.dict mes) => (convert_dynamodb_item mes).map .dict
                | some _ => none
                | none =>
                  match hL : List.lookup "L" es with
                  | some (.list xs) => (seqConvertList xs).map .list
                  | some _ => none
                  | none =>
                    match List.lookup "NULL" es with
                    | some _ => some .null
                    | none =>
                      match List.lookup "BOOL" es with
                      | some w => some w
                      | none => (convert_dynamodb_item es).map .dict
  | .list xs => (seqConvertList xs).map .list
  | .decimal m e => some (decNum m e)
  | w => some w
termination_by sizeOf v
decreasing_by
  all_goals
    first
    | (have hx := lookup_sizeOf hM; simp at hx ⊢; omega)
    | (have hx := lookup_sizeOf hL; simp at hx ⊢; omega)
    | (simp; omega)
    | simp
    | omega

/-- Translation of `convert_dynamodb_item` from
scripts/import-dynamodb-to-supabase.py (lines 82-87): each value of the
item is converted by `convert_dynamodb_value`.  The same pair-wise loop is
the `'M'` branch and the plain-dict branch of the value conversion. -/
def convert_dynamodb_item (es : List (String × PyVal)) :
    Option (List (String × PyVal)) :=
  match es with
  | [] => some []
  | (k, v) :: rest =>
    match convert_dynamodb_value v, convert_dynamodb_item rest with
    | some v2, some rest2 => some ((k, v2) :: rest2)
    | _, _ => none
termination_by sizeOf es
decreasing_by
  all_goals simp
  all_goals omega

/-- Elementwise conversion of a list in the sequential script. -/
def seqConvertList (xs : List PyVal) : Option (List PyVal) :=
  match xs with
  | [] => some []
  | v :: rest =>
    match convert_dynamodb_value v, seqConvertList rest with
    | some v2, some rest2 => some (v2 :: rest2)
    | _, _ => none
termination_by sizeOf xs
decreasing_by
  all_goals simp
  all_goals omega

end

/-- A number-tagged wire value, `\x7b'N': s\x7d`. -/
def nTag (s : String) : PyVal := .dict [("N", .str s)]

example : parseDec "5" = some (5, 0) := by decide
example : parseDec "5.50" = some (550, -2) := by decide
example : parseDec "-3" = some (-3, 0) := by decide
example : parseDec "5.0" = some (50, -1) := by decide
example : parseDec "5E1" = some (5, 1) := by decide
example : decNum 5 0 = .int 5 := rfl
example : decNum 550 (-2) = .float ((11 : ℚ)/2) := by
  have h : pyFracZero 550 (-2) = false := by decide
  simp only [decNum, h, Bool.false_eq_true, if_false]
  rw [decToRat, if_neg (by norm_num), show ((-(-2) : ℤ)).toNat = 2 from rfl]
  norm_num

/-! ### Batch planning -/

/-- The fast script's records-per-batch constant (line 30). -/
def BATCH_SIZE : Nat := 100

/-- Retry ceiling of the fast script (line 32). -/
def RETRY_ATTEMPTS_fast : Nat := 2

/-- Retry ceiling of the sequential script (line 31). -/
def RETRY_ATTEMPTS_seq : Nat := 3

/-- Translation of the batching loop shared by both scripts,
`for i in range(0, len(xs), B): batch = xs[i:i+B]`, as the recursion
that takes the first `B` elements and continues on the rest.  The
theorems `planBatches_length` and `planBatches_getElem` below recover
the source's index arithmetic (`total_batches = (N + B - 1) // B`,
batch `i` being the slice starting at `i * B`).  The guard `B = 0`
never occurs in the fast script (the constant is 100); in the
sequential script a zero step makes `range` raise, which is modelled by
`pyRangeIdx` below. -/
def planBatches {α : Type} (B : Nat) (xs : List α) : List (List α) :=
  if h : xs.isEmpty ∨ B = 0 then [] else xs.take B :: planBatches B (xs.drop B)
termination_by xs.length
decreasing_by
  have h1 : xs ≠ [] := by
    intro hx
    exact h (Or.inl (by simp [hx]))
  have h2 : B ≠ 0 := fun hb => h (Or.inr hb)
  have h3 : xs.length ≠ 0 := by simpa using h1
  simp
  omega

/-! ### The per-record retry loop -/

/-- State of the retry loop of one record: counter increments made so far
and whether the loop was left by `break`. -/
structure RecSt where
  succ : Nat
  fail : Nat
  done : Bool
deriving DecidableEq

/-- One iteration of the retry loop shared by both scripts
(`for attempt in range(RETRY_ATTEMPTS)`): a 200 response increments the
success counter and breaks; otherwise, on the last attempt only, the
failure counter is incremented.  `g i` tells whether attempt `i`
receives a 200 response. -/
def attemptStep (g : Nat → Bool) (last : Nat) (st : RecSt) (i : Nat) : RecSt :=
  if st.done then st
  else if g i then ⟨st.succ + 1, st.fail, true⟩
  else if i = last then ⟨st.succ, st.fail + 1, st.done⟩
  else st

/-- The whole retry loop of one record with attempt ceiling `n`: the pair
of (success, failure) counter increments it leaves behind. -/
def sendRecord (g : Nat → Bool) (n : Nat) : Nat × Nat :=
  (((List.range n).foldl (attemptStep g (n - 1)) ⟨0, 0, false⟩).succ,
   ((List.range n).foldl (attemptStep g (n - 1)) ⟨0, 0, false⟩).fail)

/-- The per-batch worker loop shared by both scripts: every record of the
batch goes through its own retry loop and the increments accumulate in
the batch's counters; a record's permanent failure does not stop the
loop.  `resp r i` tells whether record `r` receives a 200 response on
attempt `i`. -/
def sendBatchCounts {α : Type} (resp : α → Nat → Bool) (n : Nat)
    (rs : List α) : Nat × Nat :=
  rs.foldl
    (fun acc r =>
      (acc.1 + (sendRecord (resp r) n).1, acc.2 + (sendRecord (resp r) n).2))
    (0, 0)

/-! ### The shared progress dictionary of the fast script -/

/-- One table's entry of `progress_stats` in scripts/fast-parallel-import.py. -/
structure TableProgress where
  completed : Nat
  total : Nat
  success : Nat
  failed : Nat
deriving DecidableEq

/-- Translation of the lock-guarded progress update of
`send_batch_to_supabase` (scripts/fast-parallel-import.py lines 124-131):
a missing key is initialised to completed 0 with the reported total batch
count, then completed is incremented and the batch counters are added. -/
def reportResult (totalBatches : Nat) (st : Option TableProgress)
    (r : Nat × Nat) : TableProgress :=
  let p := st.getD ⟨0, totalBatches, 0, 0⟩
  ⟨p.completed + 1, p.total, p.success + r.1, p.failed + r.2⟩

/-- The table's progress entry after a sequence of batch reports, starting
from the key being absent. -/
def aggregate (totalBatches : Nat) (rs : List (Nat × Nat)) :
    Option TableProgress :=
  rs.foldl (fun st r => some (reportResult totalBatches st r)) none

/-! ### The fast orchestrator -/

/-- Translation of the `as_completed` loop of `import_table_parallel`
(scripts/fast-parallel-import.py lines 199-206): a future that returned a
result adds its counters, a future that raised adds the full constant
`BATCH_SIZE` to the failure total. -/
def tallyFutures (outs : List (Option (Nat × Nat))) : Nat × Nat :=
  outs.foldl
    (fun acc o =>
      match o with
      | some r => (acc.1 + r.1, acc.2 + r.2)
      | none => (acc.1, acc.2 + BATCH_SIZE))
    (0, 0)

/-- The futures of one table's batches: `crash i` tells whether the worker
of batch `i` (0-based) terminated with an unhandled exception instead of
returning its counters. -/
def runFutures {α : Type} (resp : α → Nat → Bool) (crash : Nat → Bool)
    (batches : List (List α)) : Nat × Nat :=
  tallyFutures
    (batches.enum.map fun p =>
      if crash p.1 then none
      else some (sendBatchCounts resp RETRY_ATTEMPTS_fast p.2))

/-! ### Run traces of the two import engines -/

/-- Externally visible I/O of a table import: one `scanPage` per paged
read of the source table, one `upsertCall` per record handed to the
endpoint. -/
inductive Ev where
  | scanPage
  | upsertCall
deriving DecidableEq

/-- Python `range(0, stop, step)` as used by the batching loop of the
sequential script: a zero step raises `ValueError`; a negative step with
a non-negative stop yields the empty range; a positive step yields the
start indices `0, step, 2*step, ...` below `stop`. -/
def pyRangeIdx (stop : Nat) (step : Int) : Except Unit (List Nat) :=
  if step = 0 then .error ()
  else if step < 0 then .ok []
  else .ok ((List.range ((stop + step.toNat - 1) / step.toNat)).map
    (fun i => i * step.toNat))

/-- Translation of `send_to_supabase`
(scripts/import-dynamodb-to-supabase.py lines 124-171) together with the
HTTP calls it makes: in dry-run mode it returns at once — no request is
sent — with the dict whose `success` field is the boolean `True`;
otherwise every record goes through the retry loop (at least one upsert
call each) and the integer counters are returned. -/
def send_to_supabase {α : Type} (resp : α → Nat → Bool) (records : List α)
    (dry : Bool) : List Ev × List (String × PyVal) :=
  if dry then
    ([], [("success", .bool true), ("dry_run", .bool true),
          ("count", .int records.length)])
  else
    (records.map fun _ => Ev.upsertCall,
     [("success", .int (sendBatchCounts resp RETRY_ATTEMPTS_seq records).1),
      ("failed", .int (sendBatchCounts resp RETRY_ATTEMPTS_seq records).2)])

/-- Python `result.get(k, 0)` followed by `+=` on an int counter: an int
adds itself, a boolean `True` adds 1 (bool is an int subtype in Python),
a missing key adds the default 0. -/
def pyGetInt (d : List (String × PyVal)) (k : String) : Int :=
  match List.lookup k d with
  | some (.int n) => n
  | some (.bool b) => if b then 1 else 0
  | _ => 0

/-- Result of one table's import: the I/O events in order, and either the
(success, failed) totals or the exception that escaped. -/
structure RunResult where
  events : List Ev
  outcome : Except Unit (Int × Int)

/-- Translation of `import_table` with `scan_dynamodb_table`
(scripts/import-dynamodb-to-supabase.py lines 174-246): every page of the
source table is read first — one scan event per paged read — and the
records are decoded; a table with no items returns the all-zero summary;
only then does the batching loop iterate `range(0, N, BATCH_SIZE)` —
raising for a zero batch size — sending each slice and accumulating
`result.get('success', 0)` and `result.get('failed', 0)`. -/
def seqImportTable {α : Type} (resp : α → Nat → Bool) (pages : List (List α))
    (B : Int) (dry : Bool) : RunResult :=
  let scanEvs := pages.map fun _ => Ev.scanPage
  let items := pages.flatten
  if items.isEmpty then ⟨scanEvs, .ok (0, 0)⟩
  else
    match pyRangeIdx items.length B with
    | .error _ => ⟨scanEvs, .error ()⟩
    | .ok idxs =>
      let sends := idxs.map fun i =>
        send_to_supabase resp ((items.drop i).take B.toNat) dry
      ⟨scanEvs ++ (sends.map Prod.fst).flatten,
       .ok ((sends.map fun s => pyGetInt s.2 "success").sum,
            (sends.map fun s => pyGetInt s.2 "failed").sum)⟩

/-- Translation of `import_table_parallel`
(scripts/fast-parallel-import.py lines 142-223): every page is scanned
first; no items returns the all-zero summary; then the batches of the
constant size are formed and handed to `ThreadPoolExecutor(max_workers=workers)`
— whose construction raises `ValueError` when `workers` is zero — and
the per-future loop tallies the results. -/
def parImportTable {α : Type} (resp : α → Nat → Bool) (crash : Nat → Bool)
    (pages : List (List α)) (workers : Nat) :
    List Ev × Except Unit (Nat × Nat) :=
  let scanEvs := pages.map fun _ => Ev.scanPage
  let items := pages.flatten
  if items.isEmpty then (scanEvs, .ok (0, 0))
  else if workers = 0 then (scanEvs, .error ())
  else
    let batches := planBatches BATCH_SIZE items
    (scanEvs ++
      (batches.enum.map fun p =>
        if crash p.1 then [] else p.2.map fun _ => Ev.upsertCall).flatten,
     .ok (runFutures resp crash batches))

/-! ### Properties of the batch planner -/

theorem planBatches_empty {α : Type} (B : Nat) :
    planBatches B ([] : List α) = [] := by
  rw [planBatches]
  simp

theorem planBatches_cons {α : Type} {B : Nat} (hB : B ≠ 0) {xs : List α}
    (hxs : xs ≠ []) :
    planBatches B xs = xs.take B :: planBatches B (xs.drop B) := by
  rw [planBatches, dif_neg (by simp [hxs, hB])]

theorem planBatches_flatten {α : Type} {B : Nat} (hB : B ≠ 0) (xs : List α) :
    (planBatches B xs).flatten = xs := by
  have H : ∀ n (ys : List α), ys.length ≤ n → (planBatches B ys).flatten = ys := by
    intro n
    induction n with
    | zero =>
      intro ys hy
      have h0 : ys = [] := by
        cases ys
        · rfl
        · simp at hy
      subst h0
      simp [planBatches_empty]
    | succ n ih =>
      intro ys hy
      by_cases hys : ys = []
      · subst hys
        simp [planBatches_empty]
      · rw [planBatches_cons hB hys, List.flatten_cons,
          ih (ys.drop B) (by simp; omega)]
        exact List.take_append_drop B ys
  exact H xs.length xs le_rfl

theorem planBatches_length {α : Type} {B : Nat} (hB : B ≠ 0) (xs : List α) :
    (planBatches B xs).length = (xs.length + B - 1) / B := by
  have H : ∀ n (ys : List α), ys.length ≤ n →
      (planBatches B ys).length = (ys.length + B - 1) / B := by
    intro n
    induction n with
    | zero =>
      intro ys hy
      have h0 : ys = [] := by
        cases ys
        · rfl
        · simp at hy
      subst h0
      simp [planBatches_empty]
      rw [Nat.div_eq_of_lt (by omega)]
    | succ n ih =>
      intro ys hy
      by_cases hys : ys = []
      · subst hys
        simp [planBatches_empty]
        rw [Nat.div_eq_of_lt (by omega)]
      · rw [planBatches_cons hB hys]
        simp only [List.length_cons]
        rw [ih (ys.drop B) (by simp; omega), List.length_drop]
        have hL : 1 ≤ ys.length := List.length_pos.mpr hys
        rcases le_or_lt ys.length B with hle | hgt
        · rw [show ys.length - B = 0 from by omega]
          rw [Nat.div_eq_of_lt (by omega)]
          rw [@Nat.div_eq_of_lt_le 1 B (ys.length + B - 1) (by omega) (by omega)]
        · rw [show ys.length - B + B - 1 = ys.length - 1 from by omega,
            show ys.length + B - 1 = ys.length - 1 + B from by omega,
            Nat.add_div_right _ (by omega)]
  exact H xs.length xs le_rfl

theorem planBatches_getElem {α : Type} {B : Nat} (hB : B ≠ 0) :
    ∀ (i : Nat) (xs : List α), i < (planBatches B xs).length →
      (planBatches B xs)[i]? = some ((xs.drop (i * B)).take B) := by
  intro i
  induction i with
  | zero =>
    intro xs hi
    have hxs : xs ≠ [] := by
      intro h
      subst h
      simp [planBatches_empty] at hi
    rw [planBatches_cons hB hxs]
    simp
  | succ i ih =>
    intro xs hi
    have hxs : xs ≠ [] := by
      intro h
      subst h
      simp [planBatches_empty] at hi
    rw [planBatches_cons hB hxs] at hi ⊢
    simp only [List.length_cons] at hi
    simp only [List.getElem?_cons_succ]
    rw [ih (xs.drop B) (by omega), List.drop_drop]
    rw [show B + i * B = (i + 1) * B from by ring]

/-! ### Properties of the retry loop -/

theorem foldl_attemptStep_done (g : Nat → Bool) (last : Nat) :
    ∀ (l : List Nat) (st : RecSt), st.done = true →
      l.foldl (attemptStep g last) st = st
  | [], _, _ => rfl
  | i :: l, st, h => by
    rw [List.foldl_cons,
      show attemptStep g last st i = st from by simp [attemptStep, h]]
    exact foldl_attemptStep_done g last l st h

theorem foldl_attemptStep_skip (g : Nat → Bool) (last : Nat) :
    ∀ (l : List Nat) (st : RecSt), st.done = false →
      (∀ i ∈ l, g i = false ∧ i ≠ last) →
      l.foldl (attemptStep g last) st = st
  | [], _, _, _ => rfl
  | i :: l, st, hd, hl => by
    have h1 := hl i (List.mem_cons_self i l)
    rw [List.foldl_cons,
      show attemptStep g last st i = st from by
        simp [attemptStep, hd, h1.1, h1.2]]
    exact foldl_attemptStep_skip g last l st hd
      (fun j hj => hl j (List.mem_cons_of_mem _ hj))

/-- A record whose first success arrives on attempt `K`, below the
ceiling, is counted as exactly one success and zero failures. -/
theorem sendRecord_firstSuccess (g : Nat → Bool) {n K : Nat} (hK : K < n)
    (hb : ∀ i < K, g i = false) (hgK : g K = true) :
    sendRecord g n = (1, 0) := by
  obtain ⟨d, rfl⟩ : ∃ d, n = d + 1 + K := ⟨n - K - 1, by omega⟩
  unfold sendRecord
  rw [List.range_eq_range']
  have hsplit : List.range' 0 (d + 1 + K) =
      List.range' 0 K ++ K :: List.range' (K + 1) d := by
    rw [← List.range'_append_1 0 K (d + 1)]
    congr 1
    rw [List.range'_succ]
    simp
  rw [hsplit, List.foldl_append,
    foldl_attemptStep_skip g (d + 1 + K - 1) (List.range' 0 K)
      ⟨0, 0, false⟩ rfl
      (by
        intro i hi
        rw [List.mem_range'_1] at hi
        exact ⟨hb i (by omega), by omega⟩),
    List.foldl_cons,
    show attemptStep g (d + 1 + K - 1) ⟨0, 0, false⟩ K = ⟨1, 0, true⟩ from by
      simp [attemptStep, hgK],
    foldl_attemptStep_done g (d + 1 + K - 1) _ _ rfl]

/-- A record all of whose attempts fail is counted as exactly one failure
and zero successes. -/
theorem sendRecord_allFail (g : Nat → Bool) {n : Nat} (hn : n ≠ 0)
    (hb : ∀ i < n, g i = false) :
    sendRecord g n = (0, 1) := by
  obtain ⟨d, rfl⟩ : ∃ d, n = d + 1 := ⟨n - 1, by omega⟩
  unfold sendRecord
  rw [List.range_eq_range', List.range'_1_concat, List.foldl_append,
    foldl_attemptStep_skip g (d + 1 - 1) (List.range' 0 d)
      ⟨0, 0, false⟩ rfl
      (by
        intro i hi
        rw [List.mem_range'_1] at hi
        exact ⟨hb i (by omega), by omega⟩)]
  simp only [List.foldl_cons, List.foldl_nil]
  rw [show attemptStep g (d + 1 - 1) ⟨0, 0, false⟩ (0 + d)
        = ⟨0, 1, false⟩ from by
      simp [attemptStep, hb d (by omega)]]

/-- Each record increments exactly one of the two counters, by exactly one. -/
theorem sendRecord_sum_one (g : Nat → Bool) {n : Nat} (hn : n ≠ 0) :
    (sendRecord g n).1 + (sendRecord g n).2 = 1 := by
  by_cases h : ∃ i, i < n ∧ g i = true
  · have hfind := Nat.find_spec h
    have hmin := fun i (hi : i < Nat.find h) => Nat.find_min h hi
    rw [sendRecord_firstSuccess g hfind.1
      (fun i hi => by
        have := hmin i hi
        rcases hx : g i with _ | _
        · rfl
        · exact absurd ⟨by omega, hx⟩ this)
      hfind.2]
    rfl
  · push_neg at h
    rw [sendRecord_allFail g hn
      (fun i hi => by
        rcases hx : g i with _ | _
        · rfl
        · exact absurd hx (h i hi))]
    rfl

/-- The batch counters are the sums of the per-record increments, in
record order: a permanent failure never stops the loop over the batch. -/
theorem sendBatchCounts_eq {α : Type} (resp : α → Nat → Bool) (n : Nat)
    (rs : List α) :
    sendBatchCounts resp n rs =
      ((rs.map fun r => (sendRecord (resp r) n).1).sum,
       (rs.map fun r => (sendRecord (resp r) n).2).sum) := by
  unfold sendBatchCounts
  have H : ∀ (l : List α) (a : Nat × Nat),
      l.foldl (fun acc r =>
        (acc.1 + (sendRecord (resp r) n).1, acc.2 + (sendRecord (resp r) n).2)) a
        = (a.1 + (l.map fun r => (sendRecord (resp r) n).1).sum,
           a.2 + (l.map fun r => (sendRecord (resp r) n).2).sum) := by
    intro l
    induction l with
    | nil =>
      intro a
      simp
    | cons r l ih =>
      intro a
      rw [List.foldl_cons, ih]
      simp only [List.map_cons, List.sum_cons, Prod.mk.injEq]
      constructor
      · omega
      · omega
  rw [H]
  simp

/-- Success plus failure over a batch equals the number of its records. -/
theorem sendBatchCounts_sum {α : Type} (resp : α → Nat → Bool) {n : Nat}
    (hn : n ≠ 0) (rs : List α) :
    (sendBatchCounts resp n rs).1 + (sendBatchCounts resp n rs).2 = rs.length := by
  rw [sendBatchCounts_eq]
  dsimp only
  induction rs with
  | nil => simp
  | cons r l ih =>
    simp only [List.map_cons, List.sum_cons, List.length_cons]
    have h1 := sendRecord_sum_one (resp r) hn
    omega

/-! ### Properties of the progress dictionary -/

theorem aggFold_some (t : Nat) :
    ∀ (rs : List (Nat × Nat)) (p : TableProgress),
      rs.foldl (fun st r => some (reportResult t st r)) (some p)
        = some ⟨p.completed + rs.length, p.total,
            p.success + (rs.map Prod.fst).sum, p.failed + (rs.map Prod.snd).sum⟩
  | [], p => rfl
  | r :: rs, p => by
    rw [List.foldl_cons,
      show reportResult t (some p) r
        = ⟨p.completed + 1, p.total, p.success + r.1, p.failed + r.2⟩ from rfl,
      aggFold_some t rs _]
    simp only [List.length_cons, List.map_cons, List.sum_cons]
    congr 1
    congr 1 <;> omega

/-- The progress entry after a non-empty sequence of reports: completed
count is the number of reports, total is the initialised total, and the
counters are the sums of the reported counters. -/
theorem aggregate_eq (t : Nat) :
    ∀ {rs : List (Nat × Nat)}, rs ≠ [] →
      aggregate t rs = some ⟨rs.length, t,
        (rs.map Prod.fst).sum, (rs.map Prod.snd).sum⟩
  | [], h => absurd rfl h
  | r :: rs, _ => by
    unfold aggregate
    rw [List.foldl_cons,
      show reportResult t none r = ⟨1, t, r.1, r.2⟩ from by simp [reportResult],
      aggFold_some t rs _]
    simp only [List.length_cons, List.map_cons, List.sum_cons]
    congr 1
    congr 1 <;> omega

/-! ### Unfolding lemmas for the decoders -/

/-- The tag keys the fast script checks, in source order. -/
def fastTagKeys : List String := ["S", "N", "BOOL", "NULL", "SS", "NS", "M", "L"]

/-- The tag keys the sequential script checks, in source order. -/
def seqTagKeys : List String :=
  ["S", "N", "B", "SS", "NS", "BS", "M", "L", "NULL", "BOOL"]

/-- The fast decoder passes a dict with no known tag key through
completely unchanged. -/
theorem fastConvertValue_untagged {es : List (String × PyVal)}
    (h : ∀ k ∈ fastTagKeys, List.lookup k es = none) :
    fastConvertValue (.dict es) = some (.dict es) := by
  have hS := h "S" (by simp [fastTagKeys])
  have hN := h "N" (by simp [fastTagKeys])
  have hB := h "BOOL" (by simp [fastTagKeys])
  have hU := h "NULL" (by simp [fastTagKeys])
  have hSS := h "SS" (by simp [fastTagKeys])
  have hNS := h "NS" (by simp [fastTagKeys])
  have hM := h "M" (by simp [fastTagKeys])
  have hL := h "L" (by simp [fastTagKeys])
  rw [fastConvertValue]
  simp only [hS, hN, hB, hU, hSS, hNS]
  split
  · simp_all
  · simp_all
  · split
    · simp_all
    · simp_all
    · rfl

/-- The sequential decoder treats a dict with no known tag key as an
already-converted plain dict and converts its values pair-wise. -/
theorem convert_dynamodb_value_untagged {es : List (String × PyVal)}
    (h : ∀ k ∈ seqTagKeys, List.lookup k es = none) :
    convert_dynamodb_value (.dict es) = (convert_dynamodb_item es).map .dict := by
  have hS := h "S" (by simp [seqTagKeys])
  have hN := h "N" (by simp [seqTagKeys])
  have hB := h "B" (by simp [seqTagKeys])
  have hSS := h "SS" (by simp [seqTagKeys])
  have hNS := h "NS" (by simp [seqTagKeys])
  have hBS := h "BS" (by simp [seqTagKeys])
  have hM := h "M" (by simp [seqTagKeys])
  have hL := h "L" (by simp [seqTagKeys])
  have hU := h "NULL" (by simp [seqTagKeys])
  have hBO := h "BOOL" (by simp [seqTagKeys])
  rw [convert_dynamodb_value]
  simp only [hS, hN, hB, hSS, hNS, hBS]
  split
  · simp_all
  · simp_all
  · split
    · simp_all
    · simp_all
    · simp only [hU, hBO]

/-- Both decoders send a number-tagged value through `Decimal` parsing and
the shared `int`/`float` rule. -/
theorem convertValue_nTag (s : String) :
    convert_dynamodb_value (nTag s) = (parseDec s).map (fun p => decNum p.1 p.2) ∧
    fastConvertValue (nTag s) = (parseDec s).map (fun p => decNum p.1 p.2) := by
  constructor
  · rw [show nTag s = .dict [("N", .str s)] from rfl, convert_dynamodb_value]
    simp [List.lookup]
  · rw [show nTag s = .dict [("N", .str s)] from rfl, fastConvertValue]
    simp [List.lookup]

theorem convertValue_list (xs : List PyVal) :
    convert_dynamodb_value (.list xs) = (seqConvertList xs).map .list := by
  rw [convert_dynamodb_value]

theorem convertValue_decimal (m e : Int) :
    convert_dynamodb_value (.decimal m e) = some (decNum m e) := by
  rw [convert_dynamodb_value]

theorem convertValue_str (s : String) :
    convert_dynamodb_value (.str s) = some (.str s) := by
  rw [convert_dynamodb_value]
  all_goals simp

theorem convertValue_bool (b : Bool) :
    convert_dynamodb_value (.bool b) = some (.bool b) := by
  rw [convert_dynamodb_value]
  all_goals simp

theorem convert_item_nil : convert_dynamodb_item [] = some [] := by
  rw [convert_dynamodb_item]

theorem convert_item_cons (k : String) (v : PyVal)
    (rest : List (String × PyVal)) :
    convert_dynamodb_item ((k, v) :: rest) =
      match convert_dynamodb_value v, convert_dynamodb_item rest with
      | some v2, some rest2 => some ((k, v2) :: rest2)
      | _, _ => none := by
  rw [convert_dynamodb_item]

/-! ### Claims -/

/-- C1: for every number-tagged value, both decoders parse the exact
decimal representation; the result is the integer of the exact value when
the value has zero fractional part (denominator 1) and the floating-point
of the exact value otherwise; in particular "5" decodes to the integer 5,
"5.50" to the floating-point 5.5, and "-3" to the integer -3. -/
theorem C1_number_decoding :
    (∀ s m e, parseDec s = some (m, e) →
      convert_dynamodb_value (nTag s) = some (decNum m e) ∧
      fastConvertValue (nTag s) = some (decNum m e) ∧
      ((decToRat m e).den = 1 →
        decNum m e = .int (pyIntOf m e) ∧
        ((pyIntOf m e : Int) : ℚ) = decToRat m e) ∧
      ((decToRat m e).den ≠ 1 → decNum m e = .float (decToRat m e))) ∧
    convert_dynamodb_value (nTag "5") = some (.int 5) ∧
    convert_dynamodb_value (nTag "5.50") = some (.float ((11 : ℚ) / 2)) ∧
    convert_dynamodb_value (nTag "-3") = some (.int (-3)) := by
  refine ⟨?_, ?_, ?_, ?_⟩
  · intro s m e hp
    refine ⟨?_, ?_, fun h => decNum_int h, fun h => decNum_float h⟩
    · rw [(convertValue_nTag s).1, hp]
      rfl
    · rw [(convertValue_nTag s).2, hp]
      rfl
  · rw [(convertValue_nTag "5").1,
      show parseDec "5" = some (5, 0) from by decide]
    rfl
  · rw [(convertValue_nTag "5.50").1,
      show parseDec "5.50" = some (550, -2) from by decide]
    show some (decNum 550 (-2)) = _
    have h : pyFracZero 550 (-2) = false := by decide
    simp only [decNum, h, Bool.false_eq_true, if_false]
    rw [decToRat, if_neg (by norm_num), show ((-(-2) : ℤ)).toNat = 2 from rfl]
    norm_num
  · rw [(convertValue_nTag "-3").1,
      show parseDec "-3" = some (-3, 0) from by decide]
    rfl

theorem C1_number_decoding_witness :
    parseDec "2.5" = some (25, -1) ∧
    convert_dynamodb_value (nTag "2.5") = some (decNum 25 (-1)) :=
  ⟨by decide, (C1_number_decoding.1 "2.5" 25 (-1) (by decide)).1⟩

/-- C5 counterexample: the number-tagged "5.0" has a fractional component
in its written form and "5E1" an exponent component, yet both decode to
integers (5 and 50), not to floating-point values. -/
theorem C5_counterexample :
    convert_dynamodb_value (nTag "5.0") = some (.int 5) ∧
    (convert_dynamodb_value (nTag "5.0")).map isFloatV = some false ∧
    convert_dynamodb_value (nTag "5E1") = some (.int 50) ∧
    fastConvertValue (nTag "5.0") = some (.int 5) := by
  have h50 : convert_dynamodb_value (nTag "5.0") = some (.int 5) := by
    rw [(convertValue_nTag "5.0").1,
      show parseDec "5.0" = some (50, -1) from by decide]
    rfl
  refine ⟨h50, by rw [h50]; rfl, ?_, ?_⟩
  · rw [(convertValue_nTag "5E1").1,
      show parseDec "5E1" = some (5, 1) from by decide]
    rfl
  · rw [(convertValue_nTag "5.0").2,
      show parseDec "5.0" = some (50, -1) from by decide]
    rfl

/-- C5 amended: the integer/float discrimination is by the number's exact
value, not by its written form: a number-as-string whose exact value is
an integer decodes to that integer even when written with a fractional
or exponent part ("5.0" gives the integer 5, "5E1" the integer 50), and
only a value with a nonzero fractional part decodes to floating-point. -/
theorem C5_amended :
    (∀ s m e, parseDec s = some (m, e) → (decToRat m e).den = 1 →
      convert_dynamodb_value (nTag s) = some (.int (pyIntOf m e))) ∧
    (∀ s m e, parseDec s = some (m, e) → (decToRat m e).den ≠ 1 →
      convert_dynamodb_value (nTag s) = some (.float (decToRat m e))) ∧
    convert_dynamodb_value (nTag "5.0") = some (.int 5) ∧
    convert_dynamodb_value (nTag "5E1") = some (.int 50) := by
  refine ⟨?_, ?_, ?_, ?_⟩
  · intro s m e hp h
    rw [(convertValue_nTag s).1, hp]
    show some (decNum m e) = _
    rw [(decNum_int h).1]
  · intro s m e hp h
    rw [(convertValue_nTag s).1, hp]
    show some (decNum m e) = _
    rw [decNum_float h]
  · rw [(convertValue_nTag "5.0").1,
      show parseDec "5.0" = some (50, -1) from by decide]
    rfl
  · rw [(convertValue_nTag "5E1").1,
      show parseDec "5E1" = some (5, 1) from by decide]
    rfl

theorem C5_amended_witness :
    parseDec "5.0" = some (50, -1) ∧ (decToRat 50 (-1)).den = 1 ∧
    convert_dynamodb_value (nTag "5.0") = some (.int (pyIntOf 50 (-1))) := by
  have hden : (decToRat 50 (-1)).den = 1 := by
    rw [decToRat, if_neg (by norm_num),
      show ((-(-1) : ℤ)).toNat = 1 from rfl,
      show ((50 : Int) : ℚ) / 10 ^ 1 = ((5 : Int) : ℚ) from by norm_num,
      Rat.den_intCast]
  exact ⟨by decide, hden, C5_amended.1 "5.0" 50 (-1) (by decide) hden⟩

/-- C2: for every input sequence and batch size B greater than 0, batch
i (stated here 0-based: batch index i holds the slice starting at i*B of
length at most B, so the 1-based batch i holds [(i-1)*B, i*B)),
concatenating all batches in index order reproduces the input exactly,
and the batch count equals ceil(N/B), which is the (N + B - 1) / B the
engine computes. -/
theorem C2_batch_partition {α : Type} (xs : List α) (B i : Nat) (hB : 0 < B)
    (hi : i < (xs.length + B - 1) / B) :
    (planBatches B xs).flatten = xs ∧
    (planBatches B xs).length = (xs.length + B - 1) / B ∧
    (planBatches B xs)[i]? = some ((xs.drop (i * B)).take B) := by
  have hB0 : B ≠ 0 := by omega
  refine ⟨planBatches_flatten hB0 xs, planBatches_length hB0 xs, ?_⟩
  exact planBatches_getElem hB0 i xs (by rw [planBatches_length hB0]; omega)

theorem C2_batch_partition_witness :
    0 < 2 ∧ 1 < (([10, 20, 30, 40, 50] : List Nat).length + 2 - 1) / 2 ∧
    (planBatches 2 [10, 20, 30, 40, 50]).flatten = [10, 20, 30, 40, 50] ∧
    (planBatches 2 [10, 20, 30, 40, 50]).length = 3 ∧
    (planBatches 2 ([10, 20, 30, 40, 50] : List Nat))[1]? = some [30, 40] := by
  have h := C2_batch_partition [10, 20, 30, 40, 50] 2 1 (by norm_num)
    (by norm_num)
  exact ⟨by norm_num, by norm_num, h.1, h.2.1, h.2.2⟩

/-- C4: each record of a batch increments exactly one of the success or
failure counters by exactly one: an endpoint stub failing the first K
attempts with K below the attempt ceiling and then succeeding yields one
success and zero failures, not K+1 counts; a stub failing every attempt
yields exactly one failure; and the batch counters are the per-record
sums over all records of the batch, so a permanent failure never aborts
the rest of the batch. -/
theorem C4_retry_counting :
    (∀ (g : Nat → Bool) (n : Nat), n ≠ 0 →
      (sendRecord g n).1 + (sendRecord g n).2 = 1) ∧
    (∀ (g : Nat → Bool) (n K : Nat), K < n → (∀ i < K, g i = false) →
      g K = true → sendRecord g n = (1, 0)) ∧
    (∀ (g : Nat → Bool) (n : Nat), n ≠ 0 → (∀ i < n, g i = false) →
      sendRecord g n = (0, 1)) ∧
    (∀ (resp : Nat → Nat → Bool) (n : Nat) (rs : List Nat),
      sendBatchCounts resp n rs =
        ((rs.map fun r => (sendRecord (resp r) n).1).sum,
         (rs.map fun r => (sendRecord (resp r) n).2).sum)) :=
  ⟨fun g _ hn => sendRecord_sum_one g hn,
   fun g _ K hK hb hgK => sendRecord_firstSuccess g hK hb hgK,
   fun g _ hn hb => sendRecord_allFail g hn hb,
   fun resp n rs => sendBatchCounts_eq resp n rs⟩

theorem C4_retry_counting_witness :
    (1 < RETRY_ATTEMPTS_fast ∧ (fun i => i == 1) 1 = true) ∧
    sendRecord (fun i => i == 1) RETRY_ATTEMPTS_fast = (1, 0) ∧
    sendRecord (fun _ => false) RETRY_ATTEMPTS_seq = (0, 1) := by
  refine ⟨⟨by decide, by decide⟩, ?_, ?_⟩
  · exact C4_retry_counting.2.1 (fun i => i == 1) RETRY_ATTEMPTS_fast 1
      (by decide) (by decide) (by decide)
  · exact C4_retry_counting.2.2.1 (fun _ => false) RETRY_ATTEMPTS_seq
      (by decide) (fun i _ => rfl)

/-- The success and failure sums over all batch reports add up to the sum
of the batch lengths. -/
theorem batch_report_sums {α : Type} (resp : α → Nat → Bool) {n : Nat}
    (hn : n ≠ 0) (bs : List (List α)) :
    ((bs.map fun b => sendBatchCounts resp n b).map Prod.fst).sum +
      ((bs.map fun b => sendBatchCounts resp n b).map Prod.snd).sum
      = (bs.map List.length).sum := by
  induction bs with
  | nil => simp
  | cons b bs ih =>
    simp only [List.map_cons, List.sum_cons]
    have h := sendBatchCounts_sum resp hn b
    omega

/-- C3: feed the aggregator the reports of all batches of a table, in any
prefix: the completed count never exceeds the total count, and once every
batch has reported, completed equals total (the ceil(N/B) the engine
computes) and success plus failed equals the number of scanned records. -/
theorem C3_progress_conservation {α : Type} (resp : α → Nat → Bool)
    (xs : List α) (B k : Nat) (hB : 0 < B) (hxs : xs ≠ []) :
    ((aggregate ((xs.length + B - 1) / B)
        (((planBatches B xs).map
          fun b => sendBatchCounts resp RETRY_ATTEMPTS_fast b).take k)).elim
      True (fun p => p.completed ≤ p.total)) ∧
    (aggregate ((xs.length + B - 1) / B)
        ((planBatches B xs).map
          fun b => sendBatchCounts resp RETRY_ATTEMPTS_fast b)).map
      (fun p => (p.completed, p.total, p.success + p.failed))
      = some ((xs.length + B - 1) / B, (xs.length + B - 1) / B, xs.length) := by
  have hB0 : B ≠ 0 := by omega
  have hA : RETRY_ATTEMPTS_fast ≠ 0 := by decide
  have hlen : ((planBatches B xs).map
      fun b => sendBatchCounts resp RETRY_ATTEMPTS_fast b).length
      = (xs.length + B - 1) / B := by
    rw [List.length_map, planBatches_length hB0]
  constructor
  · by_cases hk : ((planBatches B xs).map
        fun b => sendBatchCounts resp RETRY_ATTEMPTS_fast b).take k = []
    · rw [hk]
      exact trivial
    · rw [aggregate_eq _ hk]
      simp only [Option.elim]
      rw [List.length_take]
      omega
  · have hne : ((planBatches B xs).map
        fun b => sendBatchCounts resp RETRY_ATTEMPTS_fast b) ≠ [] := by
      rw [planBatches_cons hB0 hxs]
      simp
    rw [aggregate_eq _ hne]
    have h3 : (((planBatches B xs).map
          fun b => sendBatchCounts resp RETRY_ATTEMPTS_fast b).map Prod.fst).sum
        + (((planBatches B xs).map
          fun b => sendBatchCounts resp RETRY_ATTEMPTS_fast b).map Prod.snd).sum
        = xs.length := by
      have hsum := batch_report_sums resp hA (planBatches B xs)
      have hflat : ((planBatches B xs).map List.length).sum = xs.length := by
        rw [← List.length_flatten, planBatches_flatten hB0]
      omega
    simp only [Option.map_some']
    rw [hlen, h3]

theorem C3_progress_conservation_witness :
    0 < 2 ∧ ([1, 2, 3] : List Nat) ≠ [] ∧
    (((aggregate ((([1, 2, 3] : List Nat).length + 2 - 1) / 2)
        (((planBatches 2 [1, 2, 3]).map
          fun b => sendBatchCounts (fun _ _ => true) RETRY_ATTEMPTS_fast b).take 1)).elim
      True (fun p => p.completed ≤ p.total)) ∧
    (aggregate ((([1, 2, 3] : List Nat).length + 2 - 1) / 2)
        ((planBatches 2 [1, 2, 3]).map
          fun b => sendBatchCounts (fun _ _ => true) RETRY_ATTEMPTS_fast b)).map
      (fun p => (p.completed, p.total, p.success + p.failed))
      = some ((([1, 2, 3] : List Nat).length + 2 - 1) / 2,
          (([1, 2, 3] : List Nat).length + 2 - 1) / 2,
          ([1, 2, 3] : List Nat).length)) :=
  ⟨by norm_num, by simp,
   C3_progress_conservation (fun _ _ => true) [1, 2, 3] 2 1 (by norm_num)
     (by simp)⟩

/-- A batch whose every record succeeds on the first attempt reports a
success count equal to its length and zero failures. -/
theorem sendBatchCounts_allOk {α : Type} (rs : List α) :
    sendBatchCounts (fun _ _ => true) RETRY_ATTEMPTS_fast rs = (rs.length, 0) := by
  rw [sendBatchCounts_eq]
  have h1 : sendRecord (fun _ => true) RETRY_ATTEMPTS_fast = (1, 0) := by decide
  simp [h1]

/-- C9: in the parallel engine, a worker future that raised adds the full
constant batch size (100) to the failure total, whatever the batch held;
for 150 records the planner builds batches of 100 and 50 records, and
with the second worker crashing and everything else succeeding, the
reported totals are success 100 and failed 100, whose sum 200 exceeds
the 150 scanned records. -/
theorem C9_crashed_worker_overcount :
    (∀ outs : List (Option (Nat × Nat)),
      tallyFutures (outs ++ [none])
        = ((tallyFutures outs).1, (tallyFutures outs).2 + BATCH_SIZE)) ∧
    (planBatches BATCH_SIZE (List.replicate 150 ())).map List.length
      = [100, 50] ∧
    runFutures (fun _ _ => true) (fun i => i == 1)
      (planBatches BATCH_SIZE (List.replicate 150 ())) = (100, 100) ∧
    100 + 100 > (List.replicate 150 ()).length := by
  have hplan : planBatches BATCH_SIZE (List.replicate 150 ())
      = [List.replicate 100 (), List.replicate 50 ()] := by
    rw [planBatches_cons (by decide) (by simp),
      List.take_replicate, List.drop_replicate]
    rw [show min BATCH_SIZE 150 = 100 from by decide,
      show (150 - BATCH_SIZE) = 50 from by decide]
    rw [planBatches_cons (by decide) (by simp),
      List.take_replicate, List.drop_replicate]
    rw [show min BATCH_SIZE 50 = 50 from by decide,
      show (50 - BATCH_SIZE) = 0 from by decide]
    rw [show List.replicate 0 () = [] from rfl, planBatches_empty]
  refine ⟨?_, ?_, ?_, by simp⟩
  · intro outs
    unfold tallyFutures
    rw [List.foldl_append]
    rfl
  · rw [hplan]
    simp
  · rw [runFutures, hplan]
    rw [show ([List.replicate 100 (), List.replicate 50 ()] :
        List (List Unit)).enum
      = [(0, List.replicate 100 ()), (1, List.replicate 50 ())] from rfl]
    simp only [List.map_cons, List.map_nil]
    rw [show ((0 : Nat) == 1) = false from rfl,
      show ((1 : Nat) == 1) = true from rfl]
    simp only [Bool.false_eq_true, if_false, if_true]
    rw [sendBatchCounts_allOk]
    unfold tallyFutures
    simp only [List.foldl_cons, List.foldl_nil, List.length_replicate]
    rfl

theorem sum_map_one_int {α : Type} (l : List α) :
    (l.map fun _ => (1 : Int)).sum = l.length := by
  induction l with
  | nil => simp
  | cons a l ih =>
    simp only [List.map_cons, List.sum_cons, List.length_cons, ih]
    push_cast
    ring

theorem flatten_map_nil {α β : Type} (l : List α) :
    (l.map fun _ => ([] : List β)).flatten = [] := by
  induction l <;> simp_all

/-- C10: in dry-run mode the batch sender returns at once — no request is
made — with a result whose success field is the boolean True rather than
a record count; the per-table summary adds that field once per batch, so
the reported success total is the number of batches ceil(N/B), not the
number of records, and the failure total is 0. -/
theorem C10_dry_run_counts_batches {α : Type} (resp : α → Nat → Bool)
    (pages : List (List α)) (B : Int) (hB : 0 < B)
    (hne : pages.flatten ≠ []) :
    (∀ records : List α,
      send_to_supabase resp records true
        = ([], [("success", .bool true), ("dry_run", .bool true),
                ("count", .int records.length)])) ∧
    pyGetInt [("success", PyVal.bool true), ("dry_run", PyVal.bool true),
      ("count", PyVal.int 0)] "success" = 1 ∧
    (seqImportTable resp pages B true).outcome
      = .ok ((((pages.flatten.length + B.toNat - 1) / B.toNat : Nat) : Int), 0) ∧
    (seqImportTable resp pages B true).events
      = pages.map fun _ => Ev.scanPage := by
  have hsend : ∀ records : List α,
      send_to_supabase resp records true
        = ([], [("success", .bool true), ("dry_run", .bool true),
                ("count", .int records.length)]) := fun _ => rfl
  have hget : ∀ n : Int, pyGetInt [("success", PyVal.bool true),
      ("dry_run", PyVal.bool true), ("count", PyVal.int n)] "success" = 1 :=
    fun _ => rfl
  have hgetf : ∀ n : Int, pyGetInt [("success", PyVal.bool true),
      ("dry_run", PyVal.bool true), ("count", PyVal.int n)] "failed" = 0 :=
    fun _ => rfl
  have hrun : seqImportTable resp pages B true
      = ⟨pages.map fun _ => Ev.scanPage,
         .ok ((((pages.flatten.length + B.toNat - 1) / B.toNat : Nat) : Int),
           0)⟩ := by
    unfold seqImportTable pyRangeIdx
    rw [if_neg (by simpa using hne), if_neg (by omega : ¬ B = 0)]
    rw [if_neg (by omega : ¬ B < 0)]
    simp only [hsend, List.map_map, Function.comp_def]
    simp only [hget, hgetf]
    rw [sum_map_one_int, flatten_map_nil]
    simp
  exact ⟨hsend, hget 0, by rw [hrun], by rw [hrun]⟩

theorem C10_dry_run_counts_batches_witness :
    (0 : Int) < 25 ∧ ([List.replicate 50 ()] : List (List Unit)).flatten ≠ [] ∧
    (seqImportTable (fun (_ : Unit) _ => true) [List.replicate 50 ()]
        25 true).outcome = .ok (2, 0) ∧
    (2 : Int) ≠ 50 := by
  have h := C10_dry_run_counts_batches (fun (_ : Unit) _ => true)
    [List.replicate 50 ()] 25 (by norm_num) (by simp)
  exact ⟨by norm_num, by simp, h.2.2.1, by norm_num⟩

/-- C8 counterexample: a job started with batch size zero reads the whole
table first — here one scan page — and only then raises in the batching
loop, so the configuration error is not raised at job start before any
I/O. -/
theorem C8_counterexample :
    (seqImportTable (fun (_ : Unit) _ => true) [[()]] 0 false).events
      = [Ev.scanPage] ∧
    (seqImportTable (fun (_ : Unit) _ => true) [[()]] 0 false).outcome
      = .error () := by
  constructor <;> rfl

/-- C8 amended: invalid batch sizes and worker counts are not validated
at job start: the engine always reads every scan page first; with batch
size zero the sequential engine then raises in the batching loop (after
all scan I/O); with a negative batch size the batch range is empty, so
the table finishes with no error, no upsert and zero counts; and the
parallel engine with zero workers raises only when the pool is created,
likewise after the whole scan. -/
theorem C8_amended {α : Type} (resp : α → Nat → Bool) (crash : Nat → Bool)
    (pages : List (List α)) (B : Int) (hne : ¬ pages.flatten.isEmpty) :
    (B = 0 → seqImportTable resp pages B false
        = ⟨pages.map fun _ => Ev.scanPage, .error ()⟩) ∧
    (B < 0 → seqImportTable resp pages B false
        = ⟨pages.map fun _ => Ev.scanPage, .ok (0, 0)⟩) ∧
    parImportTable resp crash pages 0
      = (pages.map fun _ => Ev.scanPage, .error ()) := by
  refine ⟨?_, ?_, ?_⟩
  · intro h
    subst h
    unfold seqImportTable pyRangeIdx
    rw [if_neg hne, if_pos rfl]
  · intro h
    unfold seqImportTable pyRangeIdx
    rw [if_neg hne, if_neg (by omega : ¬ B = 0), if_pos h]
    simp
  · unfold parImportTable
    rw [if_neg hne, if_pos rfl]

theorem C8_amended_witness :
    ¬([[()]] : List (List Unit)).flatten.isEmpty ∧ ((-3 : Int) < 0) ∧
    seqImportTable (fun (_ : Unit) _ => true) [[()]] (-3) false
      = ⟨[Ev.scanPage], .ok (0, 0)⟩ ∧
    parImportTable (fun (_ : Unit) _ => true) (fun _ => false) [[()]] 0
      = ([Ev.scanPage], .error ()) := by
  have h := C8_amended (fun (_ : Unit) _ => true) (fun _ => false) [[()]]
    (-3) (by simp)
  exact ⟨by simp, by norm_num, h.2.1 (by norm_num), h.2.2⟩

/-- C6 counterexample: a tagged value matching no known tag shape is not
rejected: the fast decoder returns the dict completely unchanged and the
sequential decoder returns it with its values converted in place —
neither decoder produces an error for it. -/
theorem C6_counterexample :
    fastConvertValue (.dict [("X", .str "y")])
      = some (.dict [("X", .str "y")]) ∧
    convert_dynamodb_value (.dict [("X", .str "y")])
      = some (.dict [("X", .str "y")]) := by
  constructor
  · rw [fastConvertValue]
    simp [List.lookup]
  · rw [convert_dynamodb_value]
    simp [List.lookup]
    rw [convert_dynamodb_item]
    simp [convert_dynamodb_value, convert_dynamodb_item]

/-- C6 amended: a dict matching no known tag shape is not rejected as a
decode error and the containing record is not skipped: the fast decoder
passes it through unchanged, and the sequential decoder treats it as an
already-converted plain map, converting its values recursively. -/
theorem C6_amended {es : List (String × PyVal)}
    (hfast : ∀ k ∈ fastTagKeys, List.lookup k es = none)
    (hseq : ∀ k ∈ seqTagKeys, List.lookup k es = none) :
    fastConvertValue (.dict es) = some (.dict es) ∧
    convert_dynamodb_value (.dict es) = (convert_dynamodb_item es).map .dict :=
  ⟨fastConvertValue_untagged hfast, convert_dynamodb_value_untagged hseq⟩

theorem C6_amended_witness :
    (∀ k ∈ fastTagKeys, List.lookup k [("X", PyVal.str "y")] = none) ∧
    (∀ k ∈ seqTagKeys, List.lookup k [("X", PyVal.str "y")] = none) ∧
    fastConvertValue (.dict [("X", PyVal.str "y")])
      = some (.dict [("X", PyVal.str "y")]) := by
  have h1 : ∀ k ∈ fastTagKeys, List.lookup k [("X", PyVal.str "y")] = none := by
    simp [fastTagKeys, List.lookup]
  have h2 : ∀ k ∈ seqTagKeys, List.lookup k [("X", PyVal.str "y")] = none := by
    simp [seqTagKeys, List.lookup]
  exact ⟨h1, h2, (C6_amended h1 h2).1⟩

/-- C7 counterexample: the fast decoder does not decode an untagged map
recursively: the untagged map with a bare Decimal 5.5 leaf is passed
through unchanged, while decoding the same map with its children
independently tagged yields the canonical map with the floating-point
5.5 — two different results. -/
theorem C7_counterexample :
    fastConvertValue (.dict [("a", .decimal 55 (-1))])
      = some (.dict [("a", .decimal 55 (-1))]) ∧
    fastConvertValue (.dict [("M", .dict [("a", .dict [("N", .str "5.5")])])])
      = some (.dict [("a", .float ((11 : ℚ) / 2))]) ∧
    some (PyVal.dict [("a", PyVal.decimal 55 (-1))])
      ≠ some (PyVal.dict [("a", PyVal.float ((11 : ℚ) / 2))]) := by
  have hv : fastConvertValue (.dict [("N", .str "5.5")])
      = some (.float ((11 : ℚ) / 2)) := by
    rw [show (PyVal.dict [("N", PyVal.str "5.5")]) = nTag "5.5" from rfl,
      (convertValue_nTag "5.5").2,
      show parseDec "5.5" = some (55, -1) from by decide]
    show some (decNum 55 (-1)) = _
    have h : pyFracZero 55 (-1) = false := by decide
    simp only [decNum, h, Bool.false_eq_true, if_false]
    rw [decToRat, if_neg (by norm_num), show ((-(-1) : ℤ)).toNat = 1 from rfl]
    norm_num
  refine ⟨?_, ?_, ?_⟩
  · rw [fastConvertValue]
    simp [List.lookup]
  · rw [fastConvertValue]
    simp [List.lookup]
    rw [fastConvertEntries, hv,
      show fastConvertEntries [] = some [] from by rw [fastConvertEntries]]
  · simp

/-- C7 amended: the sequential decoder does decode untagged nested values
recursively by runtime shape — an untagged map pair-wise, a plain list
element-wise, leaves identically to their independently tagged forms (a
bare Decimal like the N-tagged string it parses from, a bare string like
its S-tagged form, a bare boolean like its BOOL-tagged form) — but the
fast decoder does not: it passes a dict without tag keys through
unchanged. -/
theorem C7_amended :
    (∀ es : List (String × PyVal),
      (∀ k ∈ seqTagKeys, List.lookup k es = none) →
      convert_dynamodb_value (.dict es) = (convert_dynamodb_item es).map .dict) ∧
    (∀ xs : List PyVal,
      convert_dynamodb_value (.list xs) = (seqConvertList xs).map .list) ∧
    (∀ (k : String) (v : PyVal) (rest : List (String × PyVal)),
      convert_dynamodb_item ((k, v) :: rest)
        = match convert_dynamodb_value v, convert_dynamodb_item rest with
          | some v2, some rest2 => some ((k, v2) :: rest2)
          | _, _ => none) ∧
    (∀ (s : String) (m e : Int), parseDec s = some (m, e) →
      convert_dynamodb_value (.decimal m e) = convert_dynamodb_value (nTag s)) ∧
    (∀ s : String, convert_dynamodb_value (.str s)
        = convert_dynamodb_value (.dict [("S", .str s)])) ∧
    (∀ b : Bool, convert_dynamodb_value (.bool b)
        = convert_dynamodb_value (.dict [("BOOL", .bool b)])) ∧
    (∀ es : List (String × PyVal),
      (∀ k ∈ fastTagKeys, List.lookup k es = none) →
      fastConvertValue (.dict es) = some (.dict es)) := by
  refine ⟨fun es h => convert_dynamodb_value_untagged h,
    convertValue_list, convert_item_cons, ?_, ?_, ?_,
    fun es h => fastConvertValue_untagged h⟩
  · intro s m e hp
    rw [convertValue_decimal, (convertValue_nTag s).1, hp]
    rfl
  · intro s
    rw [convertValue_str, convert_dynamodb_value]
    simp [List.lookup]
  · intro b
    rw [convertValue_bool, convert_dynamodb_value]
    simp [List.lookup]

theorem C7_amended_witness :
    parseDec "5.5" = some (55, -1) ∧
    convert_dynamodb_value (.decimal 55 (-1))
      = convert_dynamodb_value (nTag "5.5") ∧
    (∀ k ∈ seqTagKeys, List.lookup k [("a", PyVal.int 1)] = none) ∧
    convert_dynamodb_value (.dict [("a", PyVal.int 1)])
      = (convert_dynamodb_item [("a", PyVal.int 1)]).map .dict := by
  have h2 : ∀ k ∈ seqTagKeys, List.lookup k [("a", PyVal.int 1)] = none := by
    simp [seqTagKeys, List.lookup]
  exact ⟨by decide, C7_amended.2.2.2.1 "5.5" 55 (-1) (by decide), h2,
    C7_amended.1 [("a", PyVal.int 1)] h2⟩
